import Mathlib

/-!
Verification of matcall (src/matcall/matcall.py): a bridge that calls Matlab
functions from Python by writing mat-files into a temporary workspace,
synthesizing a one-line Matlab command, running it as a child process and
reading the results back.

The embedding below translates the module into Lean:
strings stay strings, the Python slices s[:-1] and s[:-2] become pyDrop1 and
pyDrop2, the filesystem and process effects of MatlabCaller.call become an
explicit event trace, and the external library calls (scipy savemat/loadmat,
h5py, subprocess) are modelled through an explicit environment record that
injects their observable outcomes.
-/

namespace Matcall

/-- The single-quote character used by the synthesized Matlab command when
rendering keyword arguments and addpath statements. -/
def squote : String := String.singleton (Char.ofNat 39)

/-- Python slice s[:-1] : drop the last character (empty string stays empty). -/
def pyDrop1 (s : String) : String := String.mk s.data.dropLast

/-- Python slice s[:-2] : drop the last two characters. -/
def pyDrop2 (s : String) : String := String.mk s.data.dropLast.dropLast

/-- Python str.startswith. -/
def pyStartsWith (s pre : String) : Bool := List.isPrefixOf pre.data s.data

/-- os.path.join restricted to the two-component joins the module performs. -/
def pathJoin (d f : String) : String :=
  if d = "" then f
  else if d.data.getLast? = some (Char.ofNat 47) then d ++ f
  else d ++ "/" ++ f

/-- Concatenation of a list of strings in order (matches a sequence of
Python += operations on an accumulator string). -/
def strConcat : List String → String
  | [] => ""
  | x :: xs => x ++ strConcat xs

/-- Join a list of strings with a separator and no trailing separator. -/
def joinSep (sep : String) : List String → String
  | [] => ""
  | [x] => x
  | x :: y :: xs => x ++ sep ++ joinSep sep (y :: xs)

theorem strAppend_assoc (a b c : String) : a ++ b ++ c = a ++ (b ++ c) := by
  apply String.ext
  simp [String.data_append]

theorem strAppend_empty (s : String) : s ++ "" = s := by
  apply String.ext
  simp [String.data_append]

theorem strEmpty_append (s : String) : "" ++ s = s := by
  apply String.ext
  simp [String.data_append]

theorem pyDrop1_append_comma (s : String) : pyDrop1 (s ++ ",") = s := by
  apply String.ext
  show (s ++ ",").data.dropLast = s.data
  have h : (s ++ ",").data = s.data ++ [','] := by simp [String.data_append]
  rw [h, List.dropLast_concat]

theorem pyDrop1_append_space (s : String) : pyDrop1 (s ++ " ") = s := by
  apply String.ext
  show (s ++ " ").data.dropLast = s.data
  have h : (s ++ " ").data = s.data ++ [' '] := by simp [String.data_append]
  rw [h, List.dropLast_concat]

theorem pyDrop2_append_commaSpace (s : String) : pyDrop2 (s ++ ", ") = s := by
  apply String.ext
  show (s ++ ", ").data.dropLast.dropLast = s.data
  have h : (s ++ ", ").data = (s.data ++ [',']) ++ [' '] := by
    simp [String.data_append]
  rw [h, List.dropLast_concat, List.dropLast_concat]

/-- A Python += fold over a list equals the initial string followed by the
concatenation of the appended pieces. -/
theorem foldl_append_eq (g : String → String) (xs : List String) (init : String) :
    xs.foldl (fun acc k => acc ++ g k) init = init ++ strConcat (xs.map g) := by
  induction xs generalizing init with
  | nil => simp [strConcat, strAppend_empty]
  | cons x xs ih =>
    simp only [List.foldl_cons, List.map_cons, strConcat]
    rw [ih, strAppend_assoc]

/-- Concatenating item-plus-separator pieces of a non-empty list yields the
separator-joined list followed by one trailing separator. -/
theorem strConcat_map_sep (sep : String) (xs : List String) (g : String → String)
    (h : xs ≠ []) :
    strConcat (xs.map (fun k => g k ++ sep)) = joinSep sep (xs.map g) ++ sep := by
  induction xs with
  | nil => exact absurd rfl h
  | cons x xs ih =>
    cases xs with
    | nil => simp [strConcat, joinSep, strAppend_empty]
    | cons y ys =>
      have step : strConcat ((x :: y :: ys).map (fun k => g k ++ sep)) =
          (g x ++ sep) ++ strConcat ((y :: ys).map (fun k => g k ++ sep)) := rfl
      rw [step, ih (by simp)]
      simp only [List.map_cons, joinSep]
      simp [strAppend_assoc]

/-! ## Data model -/

/-- A numeric array exchanged with the interpreter.  Only its shape (for
np.squeeze) and an abstract payload tag are relevant to the claims. -/
structure MatArr where
  dims : List Nat
  tag : Nat
deriving DecidableEq

/-- np.squeeze : remove all singleton dimensions. -/
def npSqueeze (a : MatArr) : MatArr :=
  { a with dims := a.dims.filter (fun d => d ≠ 1) }

/-- The Python exceptions the module can raise, as observed by the caller. -/
inductive PyErr where
  /-- len(None) at line 194 when output_names is left at its default None. -/
  | typeError
  /-- the failed assert on mat_version at line 198. -/
  | assertionError
  /-- dict.pop on a missing key (delete_inputs list entries, h5py lookup). -/
  | keyError (k : String)
  /-- calling .keys() or .pop on None (delete_inputs with input_dict=None),
  or iterating the names of an h5py Dataset. -/
  | attributeError
  /-- scipy savemat failed to encode the inputs (modelled via the
  environment record). -/
  | savematError
  /-- scipy loadmat / h5py.File on a missing or unreadable output file. -/
  | ioError
deriving DecidableEq

/-- The addpath argument of MatlabCaller.__init__ : None, a single path
string, or a list of paths (lines 149-154 branch on these three shapes). -/
inductive AddPath where
  | noPath
  | onePath (p : String)
  | manyPaths (ps : List String)
deriving DecidableEq

/-- The constructor state of MatlabCaller (lines 93-108). -/
structure Cfg where
  addpath : AddPath
  tempdir : Option String
  verbose : Bool
  single_comp_thread : Bool
  use_octave : Bool
  no_jvm : Bool
  no_display : Bool
deriving DecidableEq

/-- The delete_inputs argument of MatlabCaller.call : the module accepts a
bool or a list of names (lines 216-229). -/
inductive DeleteInputs where
  | ofBool (b : Bool)
  | ofList (l : List String)
deriving DecidableEq

/-- The arguments of MatlabCaller.call (lines 126-135).  input_dict is an
insertion-ordered association list, matching a Python dict. -/
structure Args where
  func : String
  input_dict : Option (List (String × MatArr))
  input_order : Option (List String)
  kwarg_names : Option (List String)
  output_names : Option (List String)
  delete_inputs : DeleteInputs
  pre_call : Option String
  post_call : Option String
  struct_as_record : Bool
  squeeze_me : Bool
  mat_version : String
deriving DecidableEq

/-! ## Command synthesis (lines 110-124 and 146-202) -/

/-- MatlabCaller._create_callstring (lines 110-124). -/
def createCallstring (c : Cfg) : String :=
  if c.use_octave then
    "octave --no-gui --eval \""
  else
    let callstr := "matlab -nosplash"
    let callstr := if c.single_comp_thread then callstr ++ " -singleCompThread" else callstr
    let callstr := if c.no_jvm then callstr ++ " -nojvm" else callstr
    let callstr := if c.no_display then callstr ++ " -nodisplay" else callstr
    callstr ++ " -r \""

/-- The input order actually used: input_order if given, else the keys of
the input dict (lines 164-165). -/
def orderOf (a : Args) (d : List (String × MatArr)) : List String :=
  match a.input_order with
  | some o => o
  | none => d.map Prod.fst

/-- One function argument as rendered by lines 167-171: a quoted
name/value pair for keyword names, the bare name otherwise. -/
def renderArg (kws : Option (List String)) (k : String) : String :=
  match kws with
  | some l => if k ∈ l then squote ++ k ++ squote ++ "," ++ k else k
  | none => k

/-- Lines 149-154: append one addpath statement per configured path to the
accumulated command string. -/
def addpathSeg (c : Cfg) (callstr : String) : String :=
  match c.addpath with
  | AddPath.noPath => callstr
  | AddPath.onePath p => callstr ++ "addpath(" ++ squote ++ p ++ squote ++ "); "
  | AddPath.manyPaths ps =>
      ps.foldl (fun cs pp => cs ++ "addpath(" ++ squote ++ pp ++ squote ++ "); ") callstr

/-- Lines 156-172: when the input dict is non-empty, append the load
statement and build the comma-joined function-argument list (input_list);
the trailing comma of the loop is removed by the slice at line 172.
(savemat itself is an effect and is modelled in callModel.) -/
def inputSeg (a : Args) (td : String) (callstr : String) : String × String :=
  match a.input_dict with
  | some d =>
    if d.length > 0 then
      let callstr := callstr ++ "load " ++ pathJoin td "input_vars.mat" ++ ";"
      let il := (orderOf a d).foldl
        (fun il k =>
          match a.kwarg_names with
          | some kws =>
            if k ∈ kws then il ++ squote ++ k ++ squote ++ "," ++ k ++ ","
            else il ++ k ++ ","
          | none => il ++ k ++ ",") ""
      (callstr, pyDrop1 il)
    else (callstr, "")
  | none => (callstr, "")

/-- Lines 174-175: the optional pre_call fragment. -/
def preCallSeg (a : Args) (callstr : String) : String :=
  match a.pre_call with
  | some p => callstr ++ " " ++ p ++ ";"
  | none => callstr

/-- Lines 177-186: when output names are requested, append the
multi-return assignment target and build the space-joined output_list;
the trailing separators are removed by the slices at lines 185-186. -/
def outputSeg (a : Args) (callstr : String) : String × String :=
  match a.output_names with
  | some outs =>
    if outs.length > 0 then
      let callstr := callstr ++ " ["
      let pair := outs.foldl
        (fun (p : String × String) name => (p.1 ++ name ++ ", ", p.2 ++ name ++ " "))
        (callstr, "")
      (pyDrop2 pair.1 ++ "] = ", pyDrop1 pair.2)
    else (callstr, "")
  | none => (callstr, "")

/-- Lines 191-192: the optional post_call fragment. -/
def postCallSeg (a : Args) (callstr : String) : String :=
  match a.post_call with
  | some p => callstr ++ " " ++ p ++ ";"
  | none => callstr

/-- Lines 194-202: the save statement guarded by the output count and the
mat_version assert, and the unconditional exit statement.  len(None) at
line 194 raises TypeError; the assert at line 198 raises AssertionError. -/
def saveSeg (a : Args) (td : String) (callstr output_list : String) : Except PyErr String :=
  match a.output_names with
  | none => Except.error PyErr.typeError
  | some outs =>
    if outs.length > 0 then
      if a.mat_version ∈ ["4", "6", "7", "7.3"] then
        Except.ok (callstr ++ " save -v" ++ a.mat_version ++ " " ++
          pathJoin td "output_vars.mat" ++ " " ++ output_list ++ ";" ++ " exit()\"")
      else Except.error PyErr.assertionError
    else Except.ok (callstr ++ " exit()\"")

/-- The command string assembled by lines 146-202 of MatlabCaller.call: the
segments above applied in the order of the source, the function signature
(line 189) in between. -/
def callstrSrc (c : Cfg) (a : Args) (td : String) : Except PyErr String :=
  -- line 147
  let callstr := createCallstring c
  -- lines 149-154
  let callstr := addpathSeg c callstr
  -- lines 156-172
  let sI := inputSeg a td callstr
  -- lines 174-175
  let callstr := preCallSeg a sI.1
  -- lines 177-186
  let sO := outputSeg a callstr
  -- line 189
  let callstr := sO.1 ++ a.func ++ "(" ++ sI.2 ++ ");"
  -- lines 191-192
  let callstr := postCallSeg a callstr
  -- lines 194-202
  saveSeg a td callstr sO.2

/-! ## Structured view of the synthesized command

The command of lines 146-202 is a concatenation of statement pieces.  The
pieces view below lists them in order with their provenance; the theorem
callstrSrc_eq_pieces proves that rendering and concatenating the pieces
yields exactly the string assembled by the += sequence of the source. -/

/-- One syntactic piece of the synthesized command, tagged by which source
statement produced it. -/
inductive Piece where
  /-- the interpreter preamble built by _create_callstring (lines 110-124). -/
  | preambleP (s : String)
  /-- one addpath statement (lines 149-154). -/
  | addpathP (p : String)
  /-- the load statement referencing the input exchange file (line 162). -/
  | loadP (file : String)
  /-- the pre_call fragment (line 175). -/
  | preCallP (s : String)
  /-- the multi-return assignment target (lines 180-185). -/
  | outAssignP (names : List String)
  /-- the function invocation itself (line 189). -/
  | callP (func : String) (args : String)
  /-- the post_call fragment (line 192). -/
  | postCallP (s : String)
  /-- the save statement (line 199). -/
  | saveP (version : String) (file : String) (vars : String)
  /-- the terminating exit statement and closing quote (line 202). -/
  | exitP
deriving DecidableEq

/-- The text each piece contributes to the command. -/
def Piece.render : Piece → String
  | Piece.preambleP s => s
  | Piece.addpathP p => "addpath(" ++ squote ++ p ++ squote ++ "); "
  | Piece.loadP f => "load " ++ f ++ ";"
  | Piece.preCallP s => " " ++ s ++ ";"
  | Piece.outAssignP ns => " [" ++ joinSep ", " ns ++ "] = "
  | Piece.callP f args => f ++ "(" ++ args ++ ");"
  | Piece.postCallP s => " " ++ s ++ ";"
  | Piece.saveP v f vars => " save -v" ++ v ++ " " ++ f ++ " " ++ vars ++ ";"
  | Piece.exitP => " exit()\""

/-- The function-argument list of the synthesized call: the configured
input order, each name rendered by renderArg, joined by commas with no
trailing separator. -/
def inputListOf (a : Args) (d : List (String × MatArr)) : String :=
  joinSep "," ((orderOf a d).map (renderArg a.kwarg_names))

/-- The addpath pieces of the command (lines 149-154). -/
def addpathPieces (c : Cfg) : List Piece :=
  match c.addpath with
  | AddPath.noPath => []
  | AddPath.onePath p => [Piece.addpathP p]
  | AddPath.manyPaths l => l.map Piece.addpathP

/-- The load piece of the command, present exactly when the input dict is
non-empty (lines 156-162). -/
def inputPieces (a : Args) (td : String) : List Piece :=
  match a.input_dict with
  | some d =>
    if d.length > 0 then [Piece.loadP (pathJoin td "input_vars.mat")] else []
  | none => []

/-- The function-argument list of the command (lines 164-172). -/
def inputListArg (a : Args) : String :=
  match a.input_dict with
  | some d => if d.length > 0 then inputListOf a d else ""
  | none => ""

/-- The pre_call piece (lines 174-175). -/
def preCallPieces (a : Args) : List Piece :=
  match a.pre_call with
  | some p => [Piece.preCallP p]
  | none => []

/-- The output-assignment piece, present exactly when output names are
requested (lines 177-186). -/
def outPieces (a : Args) : List Piece :=
  match a.output_names with
  | some outs => if outs.length > 0 then [Piece.outAssignP outs] else []
  | none => []

/-- The space-joined output variable list (lines 183-186). -/
def outputListArg (a : Args) : String :=
  match a.output_names with
  | some outs => if outs.length > 0 then joinSep " " outs else ""
  | none => ""

/-- The post_call piece (lines 191-192). -/
def postCallPieces (a : Args) : List Piece :=
  match a.post_call with
  | some p => [Piece.postCallP p]
  | none => []

/-- The trailing pieces of the command (lines 194-202): the guarded save
statement followed by the unconditional exit, with the same two failure
points as the source. -/
def savePieces (a : Args) (td : String) (output_list : String) : Except PyErr (List Piece) :=
  match a.output_names with
  | none => Except.error PyErr.typeError
  | some outs =>
    if outs.length > 0 then
      if a.mat_version ∈ ["4", "6", "7", "7.3"] then
        Except.ok [Piece.saveP a.mat_version (pathJoin td "output_vars.mat") output_list,
                   Piece.exitP]
      else Except.error PyErr.assertionError
    else Except.ok [Piece.exitP]

/-- The pieces of the synthesized command, in source order. -/
def commandPieces (c : Cfg) (a : Args) (td : String) : Except PyErr (List Piece) :=
  (savePieces a td (outputListArg a)).map (fun tail =>
    [Piece.preambleP (createCallstring c)] ++ addpathPieces c ++ inputPieces a td
      ++ preCallPieces a ++ outPieces a
      ++ [Piece.callP a.func (inputListArg a)] ++ postCallPieces a ++ tail)

theorem strConcat_append (xs ys : List String) :
    strConcat (xs ++ ys) = strConcat xs ++ strConcat ys := by
  induction xs with
  | nil => simp [strConcat, strEmpty_append]
  | cons x xs ih => simp [strConcat, ih, strAppend_assoc]

theorem addpath_fold (init : String) (l : List String) :
    l.foldl (fun cs pp => cs ++ "addpath(" ++ squote ++ pp ++ squote ++ "); ") init
      = init ++ strConcat ((l.map Piece.addpathP).map Piece.render) := by
  have hf : (fun cs pp => cs ++ "addpath(" ++ squote ++ pp ++ squote ++ "); ")
      = (fun (cs pp : String) =>
          cs ++ ("addpath(" ++ squote ++ pp ++ squote ++ "); ")) := by
    funext cs pp
    simp [strAppend_assoc]
  rw [hf, foldl_append_eq (fun pp => "addpath(" ++ squote ++ pp ++ squote ++ "); ") l init,
    List.map_map]
  rfl

theorem strConcat_map_sep_id (sep : String) (ys : List String) (h : ys ≠ []) :
    strConcat (ys.map (fun s => s ++ sep)) = joinSep sep ys ++ sep := by
  have := strConcat_map_sep sep ys id h
  simpa using this

theorem input_fold (a : Args) (d : List (String × MatArr)) :
    pyDrop1 ((orderOf a d).foldl
      (fun il k =>
        match a.kwarg_names with
        | some kws =>
          if k ∈ kws then il ++ squote ++ k ++ squote ++ "," ++ k ++ ","
          else il ++ k ++ ","
        | none => il ++ k ++ ",") "")
      = inputListOf a d := by
  have hf : (fun (il k : String) =>
        match a.kwarg_names with
        | some kws =>
          if k ∈ kws then il ++ squote ++ k ++ squote ++ "," ++ k ++ ","
          else il ++ k ++ ","
        | none => il ++ k ++ ",")
      = (fun il k => il ++ (renderArg a.kwarg_names k ++ ",")) := by
    funext il k
    cases a.kwarg_names with
    | none => simp [renderArg, strAppend_assoc]
    | some kws =>
      by_cases hk : k ∈ kws <;> simp [renderArg, hk, strAppend_assoc]
  rw [hf, foldl_append_eq (fun k => renderArg a.kwarg_names k ++ ",") (orderOf a d) ""]
  rw [strEmpty_append]
  cases ho : orderOf a d with
  | nil => simp [inputListOf, ho, strConcat, joinSep, pyDrop1]
  | cons x xs =>
    have hmap : (x :: xs).map (fun k => renderArg a.kwarg_names k ++ ",")
        = ((x :: xs).map (renderArg a.kwarg_names)).map (fun s => s ++ ",") := by
      simp [List.map_map, Function.comp]
    rw [hmap]
    rw [strConcat_map_sep_id "," ((x :: xs).map (renderArg a.kwarg_names)) (by simp)]
    rw [pyDrop1_append_comma]
    simp [inputListOf, ho]

theorem output_fold (outs : List String) (init : String) (h : outs ≠ []) :
    (pyDrop2 (outs.foldl
        (fun (p : String × String) name => (p.1 ++ name ++ ", ", p.2 ++ name ++ " "))
        (init ++ " [", "")).1 ++ "] = ",
      pyDrop1 (outs.foldl
        (fun (p : String × String) name => (p.1 ++ name ++ ", ", p.2 ++ name ++ " "))
        (init ++ " [", "")).2)
    = (init ++ Piece.render (Piece.outAssignP outs), joinSep " " outs) := by
  have hsplit : ∀ (xs : List String) (a0 b0 : String),
      xs.foldl (fun (p : String × String) name => (p.1 ++ name ++ ", ", p.2 ++ name ++ " "))
        (a0, b0)
      = (xs.foldl (fun s n => s ++ (n ++ ", ")) a0, xs.foldl (fun s n => s ++ (n ++ " ")) b0) := by
    intro xs
    induction xs with
    | nil => intro a0 b0; rfl
    | cons x xs ih =>
      intro a0 b0
      simp only [List.foldl_cons, ih]
      congr 2 <;> simp [strAppend_assoc]
  rw [hsplit]
  rw [foldl_append_eq (fun n => n ++ ", ") outs (init ++ " ["),
      foldl_append_eq (fun n => n ++ " ") outs ""]
  have h1 : strConcat (outs.map (fun n => n ++ ", ")) = joinSep ", " outs ++ ", " := by
    have := strConcat_map_sep ", " outs id h
    simpa using this
  have h2 : strConcat (outs.map (fun n => n ++ " ")) = joinSep " " outs ++ " " := by
    have := strConcat_map_sep " " outs id h
    simpa using this
  rw [h1, h2, strEmpty_append]
  rw [show init ++ " [" ++ (joinSep ", " outs ++ ", ")
        = (init ++ " [" ++ joinSep ", " outs) ++ ", " by simp [strAppend_assoc]]
  rw [pyDrop2_append_commaSpace, pyDrop1_append_space]
  simp [Piece.render, strAppend_assoc]

theorem addpathSeg_eq (c : Cfg) (s : String) :
    addpathSeg c s = s ++ strConcat ((addpathPieces c).map Piece.render) := by
  unfold addpathSeg addpathPieces
  cases c.addpath with
  | noPath => simp [strConcat, strAppend_empty]
  | onePath p => simp [strConcat, Piece.render, strAppend_empty, strAppend_assoc]
  | manyPaths l => exact addpath_fold s l

theorem inputSeg_eq (a : Args) (td s : String) :
    inputSeg a td s
      = (s ++ strConcat ((inputPieces a td).map Piece.render), inputListArg a) := by
  unfold inputSeg inputPieces inputListArg
  cases a.input_dict with
  | none => simp [strConcat, strAppend_empty]
  | some d =>
    by_cases hd : d.length > 0
    · simp only [if_pos hd]
      rw [input_fold a d]
      simp [strConcat, Piece.render, strAppend_empty, strAppend_assoc]
    · simp [if_neg hd, strConcat, strAppend_empty]

theorem preCallSeg_eq (a : Args) (s : String) :
    preCallSeg a s = s ++ strConcat ((preCallPieces a).map Piece.render) := by
  unfold preCallSeg preCallPieces
  cases a.pre_call <;> simp [strConcat, Piece.render, strAppend_empty, strAppend_assoc]

theorem outputSeg_eq (a : Args) (s : String) :
    outputSeg a s
      = (s ++ strConcat ((outPieces a).map Piece.render), outputListArg a) := by
  unfold outputSeg outPieces outputListArg
  cases a.output_names with
  | none => simp [strConcat, strAppend_empty]
  | some outs =>
    by_cases h : outs.length > 0
    · have hne : outs ≠ [] := by
        cases outs with
        | nil => simp at h
        | cons x xs => simp
      simp only [if_pos h]
      rw [output_fold outs s hne]
      simp [strConcat, strAppend_empty]
    · simp [if_neg h, strConcat, strAppend_empty]

theorem postCallSeg_eq (a : Args) (s : String) :
    postCallSeg a s = s ++ strConcat ((postCallPieces a).map Piece.render) := by
  unfold postCallSeg postCallPieces
  cases a.post_call <;> simp [strConcat, Piece.render, strAppend_empty, strAppend_assoc]

theorem saveSeg_eq (a : Args) (td s ol : String) :
    saveSeg a td s ol
      = (savePieces a td ol).map (fun t => s ++ strConcat (t.map Piece.render)) := by
  unfold saveSeg savePieces
  cases a.output_names with
  | none => rfl
  | some outs =>
    by_cases h : outs.length > 0
    · simp only [if_pos h]
      split
      · simp [strConcat, Piece.render, strAppend_empty, strAppend_assoc, Except.map]
      · rfl
    · simp [if_neg h, strConcat, Piece.render, strAppend_empty, strAppend_assoc,
        Except.map]

/-- The command string assembled by the source equals the rendered
concatenation of the structured pieces, including the two failure points. -/
theorem callstrSrc_eq_pieces (c : Cfg) (a : Args) (td : String) :
    callstrSrc c a td
      = (commandPieces c a td).map (fun ps => strConcat (ps.map Piece.render)) := by
  simp only [callstrSrc, commandPieces]
  rw [addpathSeg_eq, inputSeg_eq, preCallSeg_eq, outputSeg_eq, postCallSeg_eq, saveSeg_eq]
  dsimp only
  cases hs : savePieces a td (outputListArg a) with
  | error e => rfl
  | ok t =>
    simp only [Except.map]
    congr 1
    simp [strConcat_append, strConcat, Piece.render, strAppend_assoc,
      strAppend_empty, strEmpty_append]

/-! ## Hierarchical (v7.3) exchange file model and decode walk (lines 32-87) -/

/-- A node of a v7.3 (HDF5) exchange file: a group of named children or a
leaf dataset.  A dataset records whether its declared element type is the
opaque object dtype (np.object, line 64) and its array value. -/
inductive HNode where
  | group (children : List (String × HNode))
  | dataset (isObjectDtype : Bool) (value : MatArr)

/-- A decoded value: an array leaf or a nested mat_struct record whose
fields are listed in walk order. -/
inductive MatVal where
  | arr (a : MatArr)
  | mstruct (fields : List (String × MatVal))

/-- iter_struct (lines 32-71), as a pure function over the children of a
group node: returns the fields attached to the output mat_struct and the
skip notices printed, both in walk order.  Names beginning with the
reserved markers # or _ are skipped (line 45); groups recurse and attach a
nested record (lines 49-57); datasets of object dtype are skipped with a
printed notice (line 71); other datasets attach their (optionally
squeezed) value (lines 64-69).  Note: the recursive call at lines 55-57
does not forward squeeze_me, so nested levels always use the default
squeeze_me=True. -/
def iter_struct (squeeze_me : Bool) :
    List (String × HNode) → List (String × MatVal) × List String
  | [] => ([], [])
  | (k, child) :: rest =>
    let tail := iter_struct squeeze_me rest
    if !(pyStartsWith k "#") && !(pyStartsWith k "_") then
      match child with
      | HNode.group gcs =>
        let sub := iter_struct true gcs
        ((k, MatVal.mstruct sub.1) :: tail.1, sub.2 ++ tail.2)
      | HNode.dataset isObj v =>
        if isObj then
          (tail.1, ("skipping mat file object: " ++ k) :: tail.2)
        else
          ((k, MatVal.arr (if squeeze_me then npSqueeze v else v)) :: tail.1, tail.2)
    else tail

/-- Python dict / h5py group lookup by name. -/
def lookupAssoc {α : Type} : List (String × α) → String → Option α
  | [], _ => none
  | (k, v) :: rest, key => if k = key then some v else lookupAssoc rest key

/-- convert_mat_7_3_to_struct (lines 74-87): look up the requested
variable in the opened exchange file and walk it into a fresh mat_struct.
A missing name raises KeyError.  A plain (non-group) dataset at the top
would make line 45 iterate array rows and raise before attaching anything;
that path is modelled as AttributeError and no claim depends on it. -/
def convert_mat_7_3_to_struct (tree : List (String × HNode)) (var : String)
    (squeeze_me : Bool) : Except PyErr (MatVal × List String) :=
  match lookupAssoc tree var with
  | none => Except.error (PyErr.keyError var)
  | some (HNode.group cs) =>
    let r := iter_struct squeeze_me cs
    Except.ok (MatVal.mstruct r.1, r.2)
  | some (HNode.dataset _ _) => Except.error PyErr.attributeError

/-! ## Effects model of MatlabCaller.call (lines 126-253) -/

/-- Observable filesystem/process events of one call, in order. -/
inductive Event where
  | mkdirEv (d : String)
  | writeFileEv (p : String)
  | spawnEv (script : String)
  | rmtreeEv (d : String)
deriving DecidableEq

/-- The external world of one call: the directory tempfile.mkdtemp would
create, whether scipy savemat succeeds on the inputs, and the decoded
content the output exchange file would yield after the child process ran
(none when the interpreter failed and left no readable file). -/
structure Env where
  freshDir : String
  savematOk : Bool
  childFlat : Option (List (String × MatArr))
  childH5 : Option (List (String × HNode))

/-- The decoded result of a call: the loadmat mapping for flat versions,
or the per-name converted records for version 7.3 (lines 237-248). -/
inductive CallRes where
  | flat (m : List (String × MatArr))
  | hier (m : List (String × MatVal))

/-- A filesystem: the existing directories and files. -/
structure FS where
  dirs : List String
  files : List String
deriving DecidableEq

/-- Path p is the directory d itself or lies inside it. -/
def isUnder (d p : String) : Bool :=
  p = d || List.isPrefixOf (d.data ++ [Char.ofNat 47]) p.data

/-- Effect of one event on the filesystem; rmtree removes the directory
and everything inside it. -/
def applyEvent (fs : FS) : Event → FS
  | Event.mkdirEv d => { fs with dirs := d :: fs.dirs }
  | Event.writeFileEv p => { fs with files := p :: fs.files }
  | Event.spawnEv _ => fs
  | Event.rmtreeEv d =>
    { dirs := fs.dirs.filter (fun x => !(isUnder d x)),
      files := fs.files.filter (fun x => !(isUnder d x)) }

/-- Python dict.pop(key) on an association list: remove the first binding
of key, or fail (KeyError) when absent. -/
def popFirst (d : List (String × MatArr)) (key : String) :
    Option (List (String × MatArr)) :=
  match d with
  | [] => none
  | (k, v) :: rest =>
    if k = key then some rest else (popFirst rest key).map (fun r => (k, v) :: r)

/-- Pop each name in order; on a missing name stop with KeyError, keeping
the mutations made so far (as the Python loop does). -/
def popEach (d : List (String × MatArr)) :
    List String → List (String × MatArr) × Option PyErr
  | [] => (d, none)
  | k :: ks =>
    match popFirst d k with
    | none => (d, some (PyErr.keyError k))
    | some d2 => popEach d2 ks

/-- Lines 216-229: the delete_inputs mutation of the input dict owned by the caller.
A falsy value (False or the empty list) skips the block; True pops every
key of the dict; a non-empty list pops exactly the named keys.  Calling
.keys() or .pop on a None input dict raises AttributeError. -/
def deleteStep (pol : DeleteInputs) (inp : Option (List (String × MatArr))) :
    Option (List (String × MatArr)) × Option PyErr :=
  match pol with
  | DeleteInputs.ofBool false => (inp, none)
  | DeleteInputs.ofBool true =>
    match inp with
    | none => (none, some PyErr.attributeError)
    | some d =>
      let r := popEach d (d.map Prod.fst)
      (some r.1, r.2)
  | DeleteInputs.ofList l =>
    if l.length = 0 then (inp, none)
    else
      match inp with
      | none => (none, some PyErr.attributeError)
      | some d =>
        let r := popEach d l
        (some r.1, r.2)

/-- The three lines written to commands.sh (lines 209-213): shebang,
unconditional display override (the TODO at line 211 notwithstanding),
and the assembled command line. -/
def scriptLines (callstr : String) : List String :=
  ["#!/bin/bash", "export DISPLAY=:0", callstr]

/-- The content of commands.sh: each line followed by a newline. -/
def scriptContent (callstr : String) : String :=
  strConcat ((scriptLines callstr).map (fun l => l ++ "\n"))

/-- The result of one MatlabCaller.call: the event trace, the input dict
of the caller as left by delete_inputs, the outcome (returned value or
propagated exception), and the assembled command when assembly completed. -/
structure CallOut where
  trace : List Event
  finalInputs : Option (List (String × MatArr))
  outcome : Except PyErr (Option CallRes)
  command : Option String

/-- Lines 137-139: the workspace is the configured tempdir, or the fresh
directory tempfile.mkdtemp creates. -/
def tempdirOf (c : Cfg) (env : Env) : String :=
  match c.tempdir with
  | some t => t
  | none => env.freshDir

/-- Lines 244-248: decode each requested output name independently from
the v7.3 exchange file. -/
def decode73 (tree : List (String × HNode)) (sq : Bool) :
    List String → Except PyErr (List (String × MatVal))
  | [] => Except.ok []
  | k :: ks =>
    match convert_mat_7_3_to_struct tree k sq with
    | Except.error e => Except.error e
    | Except.ok v =>
      match decode73 tree sq ks with
      | Except.error e => Except.error e
      | Except.ok rest => Except.ok ((k, v.1) :: rest)

/-- Line 157: serialization happens exactly when the input dict is present
and non-empty. -/
def doSaveOf (a : Args) : Bool :=
  match a.input_dict with
  | some d => decide (d.length > 0)
  | none => false

/-- Lines 137-142: the directory-creation events - mkdtemp always creates
the fresh directory; a caller-supplied directory is created by makedirs
only when it does not exist yet. -/
def mkdirEvents (c : Cfg) (env : Env) (fs0 : FS) : List Event :=
  match c.tempdir with
  | none => [Event.mkdirEv env.freshDir]
  | some t => if t ∈ fs0.dirs then [] else [Event.mkdirEv t]

/-- Lines 145-249: the body of the try block.  The platform is Linux (the
module only works there, per its docstring), so the child is spawned with
bash -l on the command script; verbose printing has no modelled effect;
loadmat options struct_as_record and squeeze_me shape only the interior
of the decoded values, which the environment provides already decoded. -/
def callBody (c : Cfg) (a : Args) (env : Env) (td : String) : CallOut :=
  let infile := pathJoin td "input_vars.mat"
  -- lines 156-160: serialization runs only for a non-empty input dict
  let doSave := doSaveOf a
  if doSave && !env.savematOk then
    { trace := [], finalInputs := a.input_dict,
      outcome := Except.error PyErr.savematError, command := none }
  else
    let t0 : List Event := if doSave then [Event.writeFileEv infile] else []
    -- lines 146-202: command assembly, with its TypeError/AssertionError
    match callstrSrc c a td with
    | Except.error e =>
      { trace := t0, finalInputs := a.input_dict,
        outcome := Except.error e, command := none }
    | Except.ok callstr =>
      -- lines 208-213: write the command script
      let cmdfile := pathJoin td "commands.sh"
      let t1 := t0 ++ [Event.writeFileEv cmdfile]
      -- lines 216-229: optional destructive release of the input bindings
      let del := deleteStep a.delete_inputs a.input_dict
      match del.2 with
      | some e =>
        { trace := t1, finalInputs := del.1,
          outcome := Except.error e, command := some callstr }
      | none =>
        -- lines 231-232: spawn the child synchronously
        let t2 := t1 ++ [Event.spawnEv cmdfile]
        let outfile := pathJoin td "output_vars.mat"
        let childWrote :=
          match a.output_names with
          | some outs =>
            if outs.length > 0 then
              (if a.mat_version ∈ ["4", "6", "7"] then env.childFlat.isSome
               else env.childH5.isSome)
            else false
          | none => false
        let t3 := t2 ++ (if childWrote then [Event.writeFileEv outfile] else [])
        -- lines 237-248: decode the outputs
        match a.output_names with
        | none =>
          -- unreachable: a None output_names already raised at line 194
          { trace := t3, finalInputs := del.1,
            outcome := Except.ok none, command := some callstr }
        | some outs =>
          if outs.length > 0 then
            if a.mat_version ∈ ["4", "6", "7"] then
              match env.childFlat with
              | none =>
                { trace := t3, finalInputs := del.1,
                  outcome := Except.error PyErr.ioError, command := some callstr }
              | some m =>
                { trace := t3, finalInputs := del.1,
                  outcome := Except.ok (some (CallRes.flat m)), command := some callstr }
            else
              match env.childH5 with
              | none =>
                { trace := t3, finalInputs := del.1,
                  outcome := Except.error PyErr.ioError, command := some callstr }
              | some tree =>
                match decode73 tree a.squeeze_me outs with
                | Except.error e =>
                  { trace := t3, finalInputs := del.1,
                    outcome := Except.error e, command := some callstr }
                | Except.ok m =>
                  { trace := t3, finalInputs := del.1,
                    outcome := Except.ok (some (CallRes.hier m)), command := some callstr }
          else
            { trace := t3, finalInputs := del.1,
              outcome := Except.ok none, command := some callstr }

/-- MatlabCaller.call (lines 126-253): resolve and create the temporary
workspace (lines 137-142), run the try body, and remove the workspace
unconditionally in the finally clause (lines 250-251). -/
def callModel (c : Cfg) (a : Args) (env : Env) (fs0 : FS) : CallOut :=
  let td := tempdirOf c env
  let t0 := mkdirEvents c env fs0
  let body := callBody c a env td
  { trace := t0 ++ body.trace ++ [Event.rmtreeEv td],
    finalInputs := body.finalInputs,
    outcome := body.outcome,
    command := body.command }

/-- The filesystem after one call. -/
def callFS (c : Cfg) (a : Args) (env : Env) (fs0 : FS) : FS :=
  (callModel c a env fs0).trace.foldl applyEvent fs0

/-! ## Workspace cleanup -/

theorem applyEvent_rmtree_clears (fs : FS) (d p : String) (h : isUnder d p = true) :
    p ∉ (applyEvent fs (Event.rmtreeEv d)).files
      ∧ p ∉ (applyEvent fs (Event.rmtreeEv d)).dirs := by
  constructor <;> · intro hm; simp [applyEvent, List.mem_filter, h] at hm

theorem foldl_concat_rmtree (fs0 : FS) (l : List Event) (d : String) :
    List.foldl applyEvent fs0 (l ++ [Event.rmtreeEv d])
      = applyEvent (List.foldl applyEvent fs0 l) (Event.rmtreeEv d) := by
  rw [List.foldl_append]
  rfl

/-- The finally clause makes the final filesystem free of the workspace,
whatever the body did. -/
theorem callFS_clears (c : Cfg) (a : Args) (env : Env) (fs0 : FS) (p : String)
    (h : isUnder (tempdirOf c env) p = true) :
    p ∉ (callFS c a env fs0).files ∧ p ∉ (callFS c a env fs0).dirs := by
  unfold callFS callModel
  dsimp only
  rw [foldl_concat_rmtree]
  exact applyEvent_rmtree_clears _ _ _ h

/-! ## Concrete fixtures used by counterexamples and witnesses -/

/-- A caller-supplied workspace directory named T. -/
def exCfg : Cfg := ⟨AddPath.noPath, some "T", true, true, false, true, true⟩

/-- Empty initial filesystem. -/
def exFS : FS := ⟨[], []⟩

/-- A well-behaved environment: savemat succeeds and the child leaves a
flat output file binding z to a 5x1 array. -/
def exEnv : Env := ⟨"F", true, some [("z", ⟨[5, 1], 7⟩)], none⟩

/-- Unsupported version "4.2", one input binding, one requested output. -/
def exArgsBadVer : Args :=
  ⟨"f", some [("X", ⟨[5, 3], 0⟩)], none, none, some ["z"],
   DeleteInputs.ofBool false, none, none, false, true, "4.2"⟩

/-- Unsupported version "4.2", one input binding, empty output list. -/
def exArgsBadVerNoOut : Args :=
  ⟨"f", some [("X", ⟨[5, 3], 0⟩)], none, none, some [],
   DeleteInputs.ofBool false, none, none, false, true, "4.2"⟩

/-- C1: for every invocation of MatlabCaller.call - whether it returns
normally or raises during serialization, command synthesis, process
execution or deserialization, and whether the temporary workspace was
caller-supplied or freshly generated - the workspace directory and its
contents no longer exist on disk when the call returns or its exception
propagates. -/
theorem call_removes_workspace (c : Cfg) (a : Args) (env : Env) (fs0 : FS)
    (p : String) (h : isUnder (tempdirOf c env) p = true) :
    p ∉ (callFS c a env fs0).files ∧ p ∉ (callFS c a env fs0).dirs :=
  callFS_clears c a env fs0 p h

theorem call_removes_workspace_witness :
    isUnder (tempdirOf exCfg exEnv) "T/input_vars.mat" = true
    ∧ ("T/input_vars.mat" ∉ (callFS exCfg exArgsBadVer exEnv exFS).files
        ∧ "T/input_vars.mat" ∉ (callFS exCfg exArgsBadVer exEnv exFS).dirs) :=
  ⟨by decide,
   call_removes_workspace exCfg exArgsBadVer exEnv exFS "T/input_vars.mat" (by decide)⟩

/-! ## Failure ordering of the call (claims C2 and C9) -/

theorem callstrSrc_error_of_bad_version (c : Cfg) (a : Args) (td : String)
    (outs : List String) (ho : a.output_names = some outs) (hne : outs ≠ [])
    (hv : a.mat_version ∉ (["4", "6", "7", "7.3"] : List String)) :
    callstrSrc c a td = Except.error PyErr.assertionError := by
  unfold callstrSrc saveSeg
  dsimp only
  rw [ho]
  dsimp only
  rw [if_pos (List.length_pos.mpr hne), if_neg hv]

theorem callstrSrc_error_of_none_outputs (c : Cfg) (a : Args) (td : String)
    (ho : a.output_names = none) :
    callstrSrc c a td = Except.error PyErr.typeError := by
  unfold callstrSrc saveSeg
  dsimp only
  rw [ho]

/-- When command assembly fails, the body stops with that error (or with
the earlier serialization error) before the command script is written and
before any child process is spawned. -/
theorem callBody_of_callstr_error (c : Cfg) (a : Args) (env : Env) (td : String)
    (e : PyErr) (hcs : callstrSrc c a td = Except.error e) :
    callBody c a env td
      = ⟨[], a.input_dict, Except.error PyErr.savematError, none⟩
    ∨ callBody c a env td
      = ⟨if doSaveOf a then [Event.writeFileEv (pathJoin td "input_vars.mat")] else [],
         a.input_dict, Except.error e, none⟩ := by
  unfold callBody
  dsimp only
  split
  · left; rfl
  · right; rw [hcs]

theorem writeFile_not_mem_mkdirEvents (c : Cfg) (env : Env) (fs0 : FS) (p : String) :
    Event.writeFileEv p ∉ mkdirEvents c env fs0 := by
  unfold mkdirEvents
  cases c.tempdir with
  | none => simp
  | some t => split <;> simp

theorem spawn_not_mem_mkdirEvents (c : Cfg) (env : Env) (fs0 : FS) (s : String) :
    Event.spawnEv s ∉ mkdirEvents c env fs0 := by
  unfold mkdirEvents
  cases c.tempdir with
  | none => simp
  | some t => split <;> simp

/-- C2 counterexample: with unsupported exchange version "4.2", (i) a call
with an empty output-name list does not fail at all, and (ii) a call
requesting an output fails, but only after the input exchange file was
already written into the workspace. -/
theorem call_unsupported_version_counterexample :
    (callModel exCfg exArgsBadVerNoOut exEnv exFS).outcome = Except.ok none
    ∧ (callModel exCfg exArgsBadVer exEnv exFS).outcome
        = Except.error PyErr.assertionError
    ∧ Event.writeFileEv "T/input_vars.mat"
        ∈ (callModel exCfg exArgsBadVer exEnv exFS).trace := by
  refine ⟨rfl, rfl, ?_⟩
  decide

/-- C2 (amended): a call with an unsupported exchange-version string and a
non-empty output-name list fails before the command script is written and
before any child process is spawned; the only file that may already have
been written is the serialized input exchange file. -/
theorem call_unsupported_version_fails_early (c : Cfg) (a : Args) (env : Env)
    (fs0 : FS) (outs : List String)
    (ho : a.output_names = some outs) (hne : outs ≠ [])
    (hv : a.mat_version ∉ (["4", "6", "7", "7.3"] : List String)) :
    (∃ e, (callModel c a env fs0).outcome = Except.error e)
    ∧ (∀ p, Event.writeFileEv p ∈ (callModel c a env fs0).trace
        → p = pathJoin (tempdirOf c env) "input_vars.mat")
    ∧ (∀ s, Event.spawnEv s ∉ (callModel c a env fs0).trace) := by
  have hcs := callstrSrc_error_of_bad_version c a (tempdirOf c env) outs ho hne hv
  have hb := callBody_of_callstr_error c a env (tempdirOf c env) _ hcs
  unfold callModel
  dsimp only
  rcases hb with hb | hb <;> rw [hb] <;>
    refine ⟨⟨_, rfl⟩, ?_, ?_⟩ <;> dsimp only
  · intro p hp
    rcases List.mem_append.mp hp with hp | hp
    · rcases List.mem_append.mp hp with hp | hp
      · exact absurd hp (writeFile_not_mem_mkdirEvents c env fs0 p)
      · simp at hp
    · simp at hp
  · intro s hs
    rcases List.mem_append.mp hs with hs | hs
    · rcases List.mem_append.mp hs with hs | hs
      · exact absurd hs (spawn_not_mem_mkdirEvents c env fs0 s)
      · simp at hs
    · simp at hs
  · intro p hp
    rcases List.mem_append.mp hp with hp | hp
    · rcases List.mem_append.mp hp with hp | hp
      · exact absurd hp (writeFile_not_mem_mkdirEvents c env fs0 p)
      · by_cases hds : doSaveOf a = true
        · rw [if_pos hds] at hp
          simp at hp
          exact hp
        · rw [if_neg hds] at hp
          simp at hp
    · simp at hp
  · intro s hs
    rcases List.mem_append.mp hs with hs | hs
    · rcases List.mem_append.mp hs with hs | hs
      · exact absurd hs (spawn_not_mem_mkdirEvents c env fs0 s)
      · by_cases hds : doSaveOf a = true
        · rw [if_pos hds] at hs
          simp at hs
        · rw [if_neg hds] at hs
          simp at hs
    · simp at hs

theorem call_unsupported_version_fails_early_witness :
    exArgsBadVer.output_names = some ["z"]
    ∧ (["z"] : List String) ≠ []
    ∧ exArgsBadVer.mat_version ∉ (["4", "6", "7", "7.3"] : List String)
    ∧ ((∃ e, (callModel exCfg exArgsBadVer exEnv exFS).outcome = Except.error e)
      ∧ (∀ p, Event.writeFileEv p ∈ (callModel exCfg exArgsBadVer exEnv exFS).trace
          → p = pathJoin (tempdirOf exCfg exEnv) "input_vars.mat")
      ∧ (∀ s, Event.spawnEv s ∉ (callModel exCfg exArgsBadVer exEnv exFS).trace)) :=
  ⟨rfl, by decide, by decide,
   call_unsupported_version_fails_early exCfg exArgsBadVer exEnv exFS ["z"]
     rfl (by decide) (by decide)⟩

theorem call_trace_shape (c : Cfg) (a : Args) (env : Env) (fs0 : FS) :
    (callModel c a env fs0).trace
      = mkdirEvents c env fs0 ++ (callBody c a env (tempdirOf c env)).trace
          ++ [Event.rmtreeEv (tempdirOf c env)] := rfl

/-- When command assembly fails and serialization succeeded, the body
stops with the assembly error; the only possible write is the input file. -/
theorem callBody_of_callstr_error_savematOk (c : Cfg) (a : Args) (env : Env)
    (td : String) (e : PyErr) (hs : env.savematOk = true)
    (hcs : callstrSrc c a td = Except.error e) :
    callBody c a env td
      = ⟨if doSaveOf a then [Event.writeFileEv (pathJoin td "input_vars.mat")] else [],
         a.input_dict, Except.error e, none⟩ := by
  unfold callBody
  dsimp only
  have hc : (doSaveOf a && !env.savematOk) = false := by
    rw [hs]
    simp
  rw [hc]
  simp only [Bool.false_eq_true, if_false]
  rw [hcs]

/-- Inputs non-empty, output_names left at its default None. -/
def exArgsNoneOut : Args :=
  ⟨"f", some [("X", ⟨[5, 3], 0⟩)], none, none, none,
   DeleteInputs.ofBool false, none, none, false, true, "7"⟩

/-- C9 counterexample: with output_names=None and a non-empty input dict,
the TypeError of len(None) fires before the command script is written -
the trace holds no write of T/commands.sh, only the input-file write. -/
theorem call_none_outputs_counterexample :
    (callModel exCfg exArgsNoneOut exEnv exFS).outcome = Except.error PyErr.typeError
    ∧ (callModel exCfg exArgsNoneOut exEnv exFS).trace
        = [Event.mkdirEv "T", Event.writeFileEv "T/input_vars.mat",
           Event.rmtreeEv "T"] := ⟨rfl, rfl⟩

/-- C9 (amended): with output_names left at its default None (and
serialization not itself failing), MatlabCaller.call raises TypeError at
the output-count check after writing the input file (when inputs are
non-empty) but before the command script is written and before any child
process is spawned, and the temporary workspace is still removed before
the exception propagates. -/
theorem call_none_outputs_typeerror (c : Cfg) (a : Args) (env : Env) (fs0 : FS)
    (ho : a.output_names = none) (hs : env.savematOk = true) :
    (callModel c a env fs0).outcome = Except.error PyErr.typeError
    ∧ (∀ p, Event.writeFileEv p ∈ (callModel c a env fs0).trace
        → p = pathJoin (tempdirOf c env) "input_vars.mat")
    ∧ (∀ s, Event.spawnEv s ∉ (callModel c a env fs0).trace)
    ∧ (∀ d, a.input_dict = some d → d ≠ [] →
        Event.writeFileEv (pathJoin (tempdirOf c env) "input_vars.mat")
          ∈ (callModel c a env fs0).trace)
    ∧ (∀ p, isUnder (tempdirOf c env) p = true →
        p ∉ (callFS c a env fs0).files ∧ p ∉ (callFS c a env fs0).dirs) := by
  have hcs := callstrSrc_error_of_none_outputs c a (tempdirOf c env) ho
  have hb := callBody_of_callstr_error_savematOk c a env (tempdirOf c env) _ hs hcs
  refine ⟨?_, ?_, ?_, ?_, ?_⟩
  · show (callBody c a env (tempdirOf c env)).outcome = Except.error PyErr.typeError
    rw [hb]
  · intro p hp
    rw [call_trace_shape, hb] at hp
    dsimp only at hp
    rcases List.mem_append.mp hp with hp | hp
    · rcases List.mem_append.mp hp with hp | hp
      · exact absurd hp (writeFile_not_mem_mkdirEvents c env fs0 p)
      · by_cases hds : doSaveOf a = true
        · rw [if_pos hds] at hp
          simp at hp
          exact hp
        · rw [if_neg hds] at hp
          simp at hp
    · simp at hp
  · intro s hsp
    rw [call_trace_shape, hb] at hsp
    dsimp only at hsp
    rcases List.mem_append.mp hsp with hsp | hsp
    · rcases List.mem_append.mp hsp with hsp | hsp
      · exact absurd hsp (spawn_not_mem_mkdirEvents c env fs0 s)
      · by_cases hds : doSaveOf a = true
        · rw [if_pos hds] at hsp
          simp at hsp
        · rw [if_neg hds] at hsp
          simp at hsp
    · simp at hsp
  · intro d hd hdne
    rw [call_trace_shape, hb]
    dsimp only
    have hds : doSaveOf a = true := by
      unfold doSaveOf
      rw [hd]
      simp [List.length_pos.mpr hdne]
    rw [hds]
    simp
  · intro p hp
    exact callFS_clears c a env fs0 p hp

theorem call_none_outputs_typeerror_witness :
    exArgsNoneOut.output_names = none
    ∧ exEnv.savematOk = true
    ∧ ((callModel exCfg exArgsNoneOut exEnv exFS).outcome
        = Except.error PyErr.typeError
      ∧ (∀ p, Event.writeFileEv p ∈ (callModel exCfg exArgsNoneOut exEnv exFS).trace
          → p = pathJoin (tempdirOf exCfg exEnv) "input_vars.mat")
      ∧ (∀ s, Event.spawnEv s ∉ (callModel exCfg exArgsNoneOut exEnv exFS).trace)
      ∧ (∀ d, exArgsNoneOut.input_dict = some d → d ≠ [] →
          Event.writeFileEv (pathJoin (tempdirOf exCfg exEnv) "input_vars.mat")
            ∈ (callModel exCfg exArgsNoneOut exEnv exFS).trace)
      ∧ (∀ p, isUnder (tempdirOf exCfg exEnv) p = true →
          p ∉ (callFS exCfg exArgsNoneOut exEnv exFS).files
            ∧ p ∉ (callFS exCfg exArgsNoneOut exEnv exFS).dirs)) :=
  ⟨rfl, rfl, call_none_outputs_typeerror exCfg exArgsNoneOut exEnv exFS rfl rfl⟩

/-! ## Version validation only happens with outputs (claim C10) -/

theorem callstrSrc_ok_of_empty_outputs (c : Cfg) (a : Args) (td : String)
    (ho : a.output_names = some []) :
    ∃ s, callstrSrc c a td = Except.ok s := by
  unfold callstrSrc saveSeg
  dsimp only
  rw [ho]
  dsimp only
  rw [if_neg (by simp)]
  exact ⟨_, rfl⟩

theorem popEach_error_keyError (l : List String) (d : List (String × MatArr))
    (e : PyErr) (h : (popEach d l).2 = some e) : ∃ k, e = PyErr.keyError k := by
  induction l generalizing d with
  | nil => simp [popEach] at h
  | cons k ks ih =>
    unfold popEach at h
    cases hp : popFirst d k with
    | none =>
      rw [hp] at h
      dsimp only at h
      exact ⟨k, (Option.some.inj h).symm⟩
    | some d2 =>
      rw [hp] at h
      dsimp only at h
      exact ih d2 h

theorem deleteStep_error_shape (pol : DeleteInputs)
    (inp : Option (List (String × MatArr))) (e : PyErr)
    (h : (deleteStep pol inp).2 = some e) :
    e = PyErr.attributeError ∨ ∃ k, e = PyErr.keyError k := by
  unfold deleteStep at h
  cases pol with
  | ofBool b =>
    cases b with
    | false => simp at h
    | true =>
      cases inp with
      | none =>
        dsimp only at h
        exact Or.inl (Option.some.inj h).symm
      | some d =>
        dsimp only at h
        exact Or.inr (popEach_error_keyError (d.map Prod.fst) d e h)
  | ofList l =>
    dsimp only at h
    split at h
    · simp at h
    · cases inp with
      | none => exact Or.inl (Option.some.inj h).symm
      | some d => exact Or.inr (popEach_error_keyError l d e h)

/-- C10: the exchange-version value is validated only when at least one
output name is requested - a call with an empty output-name list never
raises the version assert, whatever the version string is. -/
theorem version_unchecked_without_outputs (c : Cfg) (a : Args) (env : Env)
    (fs0 : FS) (ho : a.output_names = some []) :
    (callModel c a env fs0).outcome ≠ Except.error PyErr.assertionError := by
  obtain ⟨s, hcs⟩ := callstrSrc_ok_of_empty_outputs c a (tempdirOf c env) ho
  show (callBody c a env (tempdirOf c env)).outcome ≠ _
  unfold callBody
  dsimp only
  split
  · intro hcon
    exact PyErr.noConfusion (Except.error.inj hcon)
  · rw [hcs]
    dsimp only
    cases hdel : (deleteStep a.delete_inputs a.input_dict).2 with
    | some e =>
      dsimp only
      intro hcon
      rcases deleteStep_error_shape a.delete_inputs a.input_dict e hdel with hsh | ⟨k, hsh⟩ <;>
        · rw [hsh] at hcon
          exact PyErr.noConfusion (Except.error.inj hcon)
    | none =>
      dsimp only
      rw [ho]
      dsimp only
      rw [if_neg (by simp)]
      intro hcon
      exact Except.noConfusion hcon

theorem version_unchecked_without_outputs_witness :
    exArgsBadVerNoOut.output_names = some []
    ∧ (callModel exCfg exArgsBadVerNoOut exEnv exFS).outcome
        ≠ Except.error PyErr.assertionError :=
  ⟨rfl, version_unchecked_without_outputs exCfg exArgsBadVerNoOut exEnv exFS rfl⟩

/-! ## The delete_inputs mutation (claim C7) -/

theorem popEach_self (d : List (String × MatArr)) :
    popEach d (d.map Prod.fst) = ([], none) := by
  induction d with
  | nil => rfl
  | cons kv rest ih =>
    obtain ⟨k, v⟩ := kv
    simp only [List.map_cons]
    unfold popEach
    rw [show popFirst ((k, v) :: rest) k = some rest by
      unfold popFirst
      rw [if_pos rfl]]
    exact ih

theorem filter_ne_of_not_mem (d : List (String × MatArr)) (k : String)
    (h : k ∉ d.map Prod.fst) :
    d.filter (fun kv => decide (kv.1 ≠ k)) = d := by
  apply List.filter_eq_self.mpr
  intro kv hkv
  simp only [decide_eq_true_eq]
  intro hkk
  exact h (hkk ▸ List.mem_map_of_mem Prod.fst hkv)

theorem popFirst_nodup_eq (d : List (String × MatArr)) (k : String)
    (hnd : (d.map Prod.fst).Nodup) (hk : k ∈ d.map Prod.fst) :
    popFirst d k = some (d.filter (fun kv => decide (kv.1 ≠ k))) := by
  induction d with
  | nil => simp at hk
  | cons kv rest ih =>
    obtain ⟨k0, v0⟩ := kv
    simp only [List.map_cons, List.nodup_cons] at hnd
    by_cases h0 : k0 = k
    · subst h0
      unfold popFirst
      rw [if_pos rfl]
      rw [List.filter_cons]
      simp only [decide_eq_true_eq]
      rw [if_neg (by simp)]
      rw [filter_ne_of_not_mem rest k0 hnd.1]
    · unfold popFirst
      rw [if_neg h0]
      have hk2 : k ∈ rest.map Prod.fst := by
        rcases List.mem_cons.mp hk with he | hm
        · exact absurd he.symm h0
        · exact hm
      rw [ih hnd.2 hk2]
      rw [List.filter_cons]
      rw [if_pos (by simp [h0])]
      rfl

theorem popEach_nodup_sub (l : List String) (d : List (String × MatArr))
    (hnd : (d.map Prod.fst).Nodup) (hl : l.Nodup)
    (hsub : ∀ k, k ∈ l → k ∈ d.map Prod.fst) :
    popEach d l = (d.filter (fun kv => decide (kv.1 ∉ l)), none) := by
  induction l generalizing d with
  | nil =>
    unfold popEach
    rw [List.filter_eq_self.mpr (by intro a _; simp)]
  | cons k ks ih =>
    simp only [List.nodup_cons] at hl
    unfold popEach
    rw [popFirst_nodup_eq d k hnd (hsub k (by simp))]
    dsimp only
    have hnd2 : ((d.filter (fun kv => decide (kv.1 ≠ k))).map Prod.fst).Nodup :=
      ((d.filter_sublist (p := fun kv => decide (kv.1 ≠ k))).map Prod.fst).nodup hnd
    have hsub2 : ∀ k2, k2 ∈ ks
        → k2 ∈ (d.filter (fun kv => decide (kv.1 ≠ k))).map Prod.fst := by
      intro k2 hk2
      obtain ⟨kv, hkv, hfst⟩ := List.mem_map.mp (hsub k2 (List.mem_cons_of_mem k hk2))
      have hne : k2 ≠ k := fun hek => hl.1 (hek ▸ hk2)
      refine List.mem_map.mpr ⟨kv, List.mem_filter.mpr ⟨hkv, ?_⟩, hfst⟩
      simp [hfst, hne]
    rw [ih (d.filter (fun kv => decide (kv.1 ≠ k))) hnd2 hl.2 hsub2]
    rw [List.filter_filter]
    have hpred : ∀ kv : String × MatArr,
        (decide (kv.1 ∉ ks) && decide (kv.1 ≠ k)) = decide (kv.1 ∉ (k :: ks)) := by
      intro kv
      by_cases h1 : kv.1 = k <;> by_cases h2 : kv.1 ∈ ks <;> simp [h1, h2]
    rw [show (fun kv : String × MatArr => decide (kv.1 ∉ ks) && decide (kv.1 ≠ k))
        = fun kv => decide (kv.1 ∉ (k :: ks)) from funext hpred]

theorem call_finalInputs_eq (c : Cfg) (a : Args) (env : Env) (fs0 : FS) :
    (callModel c a env fs0).finalInputs
      = (callBody c a env (tempdirOf c env)).finalInputs := rfl

theorem callBody_finalInputs_cases (c : Cfg) (a : Args) (env : Env) (td : String) :
    (callBody c a env td).finalInputs = a.input_dict
    ∨ (callBody c a env td).finalInputs
        = (deleteStep a.delete_inputs a.input_dict).1 := by
  unfold callBody
  dsimp only
  split
  · exact Or.inl rfl
  · cases callstrSrc c a td with
    | error e => exact Or.inl rfl
    | ok s =>
      dsimp only
      right
      cases (deleteStep a.delete_inputs a.input_dict).2 with
      | some e => rfl
      | none =>
        dsimp only
        repeat' split
        all_goals rfl

theorem callBody_finalInputs_of_ok (c : Cfg) (a : Args) (env : Env) (td s : String)
    (hcs : callstrSrc c a td = Except.ok s) (hsm : env.savematOk = true) :
    (callBody c a env td).finalInputs
      = (deleteStep a.delete_inputs a.input_dict).1 := by
  unfold callBody
  dsimp only
  have hc : (doSaveOf a && !env.savematOk) = false := by
    rw [hsm]
    simp
  rw [hc]
  simp only [Bool.false_eq_true, if_false]
  rw [hcs]
  dsimp only
  cases (deleteStep a.delete_inputs a.input_dict).2 with
  | some e => rfl
  | none =>
    dsimp only
    repeat' split
    all_goals rfl

/-- C7: MatlabCaller.call mutates the input dict owned by the caller exactly as
delete_inputs directs: a False policy leaves the dict unchanged on every
exit path; once the call reaches the deletion block (assembly and
serialization succeeded), a True policy removes every binding, and an
explicit list removes exactly the named bindings, leaving every other
binding untouched. -/
theorem call_delete_inputs_policy (c : Cfg) (a : Args) (env : Env) (fs0 : FS) :
    (a.delete_inputs = DeleteInputs.ofBool false →
      (callModel c a env fs0).finalInputs = a.input_dict)
    ∧ (∀ s d, callstrSrc c a (tempdirOf c env) = Except.ok s →
        env.savematOk = true → a.input_dict = some d →
        ((a.delete_inputs = DeleteInputs.ofBool true →
           (callModel c a env fs0).finalInputs = some [])
         ∧ (∀ l, a.delete_inputs = DeleteInputs.ofList l →
             (d.map Prod.fst).Nodup → l.Nodup →
             (∀ k, k ∈ l → k ∈ d.map Prod.fst) →
             (callModel c a env fs0).finalInputs
               = some (d.filter (fun kv => decide (kv.1 ∉ l)))))) := by
  constructor
  · intro hpol
    rw [call_finalInputs_eq]
    rcases callBody_finalInputs_cases c a env (tempdirOf c env) with h | h
    · exact h
    · rw [h, hpol]
      simp [deleteStep]
  · intro s d hcs hsm hd
    have hfin := callBody_finalInputs_of_ok c a env (tempdirOf c env) s hcs hsm
    constructor
    · intro hpol
      rw [call_finalInputs_eq, hfin, hpol, hd]
      simp [deleteStep, popEach_self]
    · intro l hpol hnd hlnd hsub
      rw [call_finalInputs_eq, hfin, hpol, hd]
      unfold deleteStep
      dsimp only
      by_cases hl0 : l.length = 0
      · have hln : l = [] := List.length_eq_zero.mp hl0
        subst hln
        rw [if_pos hl0]
        dsimp only
        rw [List.filter_eq_self.mpr (by intro x _; simp)]
      · rw [if_neg hl0]
        dsimp only
        rw [popEach_nodup_sub l d hnd hlnd hsub]

/-- Two inputs X and Y, empty output list, delete policy True. -/
def exArgsDelTrue : Args :=
  ⟨"f", some [("X", ⟨[5, 3], 0⟩), ("Y", ⟨[2], 2⟩)], none, none, some [],
   DeleteInputs.ofBool true, none, none, false, true, "7"⟩

/-- Same inputs, delete policy given as the list containing only X. -/
def exArgsDelList : Args :=
  ⟨"f", some [("X", ⟨[5, 3], 0⟩), ("Y", ⟨[2], 2⟩)], none, none, some [],
   DeleteInputs.ofList ["X"], none, none, false, true, "7"⟩

/-- Same inputs, delete policy False. -/
def exArgsDelFalse : Args :=
  ⟨"f", some [("X", ⟨[5, 3], 0⟩), ("Y", ⟨[2], 2⟩)], none, none, some [],
   DeleteInputs.ofBool false, none, none, false, true, "7"⟩

theorem call_delete_inputs_policy_witness :
    (callModel exCfg exArgsDelTrue exEnv exFS).finalInputs = some []
    ∧ (callModel exCfg exArgsDelList exEnv exFS).finalInputs = some [("Y", ⟨[2], 2⟩)]
    ∧ (callModel exCfg exArgsDelFalse exEnv exFS).finalInputs
        = exArgsDelFalse.input_dict := by
  refine ⟨?_, ?_, (call_delete_inputs_policy exCfg exArgsDelFalse exEnv exFS).1 rfl⟩
  · obtain ⟨s, hs⟩ := callstrSrc_ok_of_empty_outputs exCfg exArgsDelTrue "T" rfl
    exact ((call_delete_inputs_policy exCfg exArgsDelTrue exEnv exFS).2 s
      [("X", ⟨[5, 3], 0⟩), ("Y", ⟨[2], 2⟩)] hs rfl rfl).1 rfl
  · obtain ⟨s, hs⟩ := callstrSrc_ok_of_empty_outputs exCfg exArgsDelList "T" rfl
    have h := ((call_delete_inputs_policy exCfg exArgsDelList exEnv exFS).2 s
      [("X", ⟨[5, 3], 0⟩), ("Y", ⟨[2], 2⟩)] hs rfl rfl).2 ["X"] rfl
      (by decide) (by decide) (by decide)
    exact h.trans (by decide)

/-! ## Shape of the synthesized command (claims C3 and C5) -/

/-- Is this piece the load statement. -/
def Piece.isLoad : Piece → Bool
  | Piece.loadP _ => true
  | _ => false

/-- Is this piece the function invocation. -/
def Piece.isCall : Piece → Bool
  | Piece.callP _ _ => true
  | _ => false

/-- Is this piece the multi-return assignment target. -/
def Piece.isOutAssign : Piece → Bool
  | Piece.outAssignP _ => true
  | _ => false

/-- Is this piece the save statement. -/
def Piece.isSave : Piece → Bool
  | Piece.saveP _ _ _ => true
  | _ => false

theorem filter_addpathPieces (q : Piece → Bool)
    (hq : ∀ p, q (Piece.addpathP p) = false) (c : Cfg) :
    (addpathPieces c).filter q = [] := by
  unfold addpathPieces
  cases c.addpath with
  | noPath => rfl
  | onePath p => simp [hq]
  | manyPaths l =>
    apply List.filter_eq_nil_iff.mpr
    intro x hx
    obtain ⟨p, hp, hxe⟩ := List.mem_map.mp hx
    simp [hxe.symm, hq]

theorem filter_inputPieces (q : Piece → Bool)
    (hq : ∀ f, q (Piece.loadP f) = false) (a : Args) (td : String) :
    (inputPieces a td).filter q = [] := by
  unfold inputPieces
  cases a.input_dict with
  | none => rfl
  | some d => split <;> simp [hq]

theorem filter_preCallPieces (q : Piece → Bool)
    (hq : ∀ s, q (Piece.preCallP s) = false) (a : Args) :
    (preCallPieces a).filter q = [] := by
  unfold preCallPieces
  cases a.pre_call <;> simp [hq]

theorem filter_postCallPieces (q : Piece → Bool)
    (hq : ∀ s, q (Piece.postCallP s) = false) (a : Args) :
    (postCallPieces a).filter q = [] := by
  unfold postCallPieces
  cases a.post_call <;> simp [hq]

theorem filter_outPieces (q : Piece → Bool)
    (hq : ∀ ns, q (Piece.outAssignP ns) = false) (a : Args) :
    (outPieces a).filter q = [] := by
  unfold outPieces
  cases a.output_names with
  | none => rfl
  | some outs => split <;> simp [hq]

theorem filter_saveTail (q : Piece → Bool)
    (hq1 : ∀ v f vars, q (Piece.saveP v f vars) = false)
    (hq2 : q Piece.exitP = false)
    (a : Args) (td ol : String) (t : List Piece)
    (h : savePieces a td ol = Except.ok t) : t.filter q = [] := by
  unfold savePieces at h
  cases ho2 : a.output_names with
  | none =>
    rw [ho2] at h
    exact Except.noConfusion h
  | some outs =>
    rw [ho2] at h
    dsimp only at h
    split at h
    · split at h
      · rw [(Except.ok.inj h).symm]
        simp [hq1, hq2]
      · exact Except.noConfusion h
    · rw [(Except.ok.inj h).symm]
      simp [hq2]

theorem outPieces_of_empty (a : Args) (ho : a.output_names = some []) :
    outPieces a = [] := by
  unfold outPieces
  rw [ho]
  dsimp only
  rw [if_neg (by simp)]

theorem inputPieces_of_nonempty (a : Args) (td : String)
    (d : List (String × MatArr)) (hd : a.input_dict = some d) (hne : d ≠ []) :
    inputPieces a td = [Piece.loadP (pathJoin td "input_vars.mat")] := by
  unfold inputPieces
  rw [hd]
  dsimp only
  rw [if_pos (List.length_pos.mpr hne)]

theorem inputListArg_of_nonempty (a : Args)
    (d : List (String × MatArr)) (hd : a.input_dict = some d) (hne : d ≠ []) :
    inputListArg a = inputListOf a d := by
  unfold inputListArg
  rw [hd]
  dsimp only
  rw [if_pos (List.length_pos.mpr hne)]

/-- The pieces of a successfully assembled command, fully decomposed. -/
theorem commandPieces_shape (c : Cfg) (a : Args) (td : String) (ps : List Piece)
    (hcp : commandPieces c a td = Except.ok ps) :
    ∃ tail, savePieces a td (outputListArg a) = Except.ok tail
      ∧ ps = [Piece.preambleP (createCallstring c)] ++ addpathPieces c
          ++ inputPieces a td ++ preCallPieces a ++ outPieces a
          ++ [Piece.callP a.func (inputListArg a)] ++ postCallPieces a ++ tail := by
  unfold commandPieces at hcp
  cases hsp : savePieces a td (outputListArg a) with
  | error e =>
    rw [hsp] at hcp
    exact absurd hcp (by simp [Except.map])
  | ok tail =>
    rw [hsp] at hcp
    simp only [Except.map] at hcp
    exact ⟨tail, rfl, (Except.ok.inj hcp).symm⟩

/-- C3: for every call with a non-empty input mapping whose command
assembly succeeds, the synthesized command contains exactly one load
statement, referencing the serialized input exchange file, and exactly one
function invocation whose argument list renders each name of the
configured input order exactly once, in order, as a quoted-name/value pair
when flagged as a keyword argument and as the bare name otherwise, joined
by commas with no trailing separator. -/
theorem call_command_load_and_args (c : Cfg) (a : Args) (td s : String)
    (d : List (String × MatArr)) (hd : a.input_dict = some d) (hne : d ≠ [])
    (hok : callstrSrc c a td = Except.ok s) :
    ∃ ps, commandPieces c a td = Except.ok ps
      ∧ s = strConcat (ps.map Piece.render)
      ∧ ps.filter Piece.isLoad = [Piece.loadP (pathJoin td "input_vars.mat")]
      ∧ ps.filter Piece.isCall
          = [Piece.callP a.func
              (joinSep "," ((orderOf a d).map (renderArg a.kwarg_names)))] := by
  have hbr := callstrSrc_eq_pieces c a td
  rw [hok] at hbr
  cases hcp : commandPieces c a td with
  | error e =>
    rw [hcp] at hbr
    exact absurd hbr (by simp [Except.map])
  | ok ps =>
    rw [hcp] at hbr
    simp only [Except.map] at hbr
    obtain ⟨tail, hsp, hps⟩ := commandPieces_shape c a td ps hcp
    refine ⟨ps, rfl, Except.ok.inj hbr, ?_, ?_⟩
    · rw [hps]
      simp only [List.filter_append]
      rw [filter_addpathPieces Piece.isLoad (fun p => rfl) c,
        filter_preCallPieces Piece.isLoad (fun s2 => rfl) a,
        filter_postCallPieces Piece.isLoad (fun s2 => rfl) a,
        filter_outPieces Piece.isLoad (fun ns => rfl) a,
        filter_saveTail Piece.isLoad (fun v f vars => rfl) rfl a td
          (outputListArg a) tail hsp,
        inputPieces_of_nonempty a td d hd hne]
      simp [Piece.isLoad]
    · rw [hps]
      simp only [List.filter_append]
      rw [filter_addpathPieces Piece.isCall (fun p => rfl) c,
        filter_preCallPieces Piece.isCall (fun s2 => rfl) a,
        filter_postCallPieces Piece.isCall (fun s2 => rfl) a,
        filter_outPieces Piece.isCall (fun ns => rfl) a,
        filter_saveTail Piece.isCall (fun v f vars => rfl) rfl a td
          (outputListArg a) tail hsp,
        inputPieces_of_nonempty a td d hd hne,
        inputListArg_of_nonempty a d hd hne]
      simp [Piece.isCall, Piece.isLoad, inputListOf]

/-- C5: for every call whose output-name list is the empty list, the
synthesized command contains no output-assignment piece and no save
statement, but the command still ends with the terminating exit statement
(whose rendering closes the quote). -/
theorem call_command_empty_outputs (c : Cfg) (a : Args) (td : String)
    (ho : a.output_names = some []) :
    ∃ s ps, callstrSrc c a td = Except.ok s
      ∧ commandPieces c a td = Except.ok ps
      ∧ s = strConcat (ps.map Piece.render)
      ∧ ps.filter Piece.isOutAssign = []
      ∧ ps.filter Piece.isSave = []
      ∧ ps.getLast? = some Piece.exitP
      ∧ (∃ s0, s = s0 ++ Piece.render Piece.exitP) := by
  have hsp : savePieces a td (outputListArg a) = Except.ok [Piece.exitP] := by
    unfold savePieces
    rw [ho]
    dsimp only
    rw [if_neg (by simp)]
  have hcp : commandPieces c a td
      = Except.ok ([Piece.preambleP (createCallstring c)] ++ addpathPieces c
        ++ inputPieces a td ++ preCallPieces a ++ outPieces a
        ++ [Piece.callP a.func (inputListArg a)] ++ postCallPieces a
        ++ [Piece.exitP]) := by
    unfold commandPieces
    rw [hsp]
    rfl
  have hbr := callstrSrc_eq_pieces c a td
  rw [hcp] at hbr
  simp only [Except.map] at hbr
  refine ⟨_, _, hbr, hcp, rfl, ?_, ?_, ?_, ?_⟩
  · simp only [List.filter_append]
    rw [filter_addpathPieces Piece.isOutAssign (fun p => rfl) c,
      filter_inputPieces Piece.isOutAssign (fun f => rfl) a td,
      filter_preCallPieces Piece.isOutAssign (fun s2 => rfl) a,
      filter_postCallPieces Piece.isOutAssign (fun s2 => rfl) a,
      outPieces_of_empty a ho]
    simp [Piece.isOutAssign]
  · simp only [List.filter_append]
    rw [filter_addpathPieces Piece.isSave (fun p => rfl) c,
      filter_inputPieces Piece.isSave (fun f => rfl) a td,
      filter_preCallPieces Piece.isSave (fun s2 => rfl) a,
      filter_postCallPieces Piece.isSave (fun s2 => rfl) a,
      outPieces_of_empty a ho]
    simp [Piece.isSave]
  · exact List.getLast?_concat _
  · refine ⟨strConcat ((([Piece.preambleP (createCallstring c)] ++ addpathPieces c
      ++ inputPieces a td ++ preCallPieces a ++ outPieces a
      ++ [Piece.callP a.func (inputListArg a)] ++ postCallPieces a).map Piece.render)), ?_⟩
    rw [List.map_append, strConcat_append]
    rw [show strConcat ([Piece.exitP].map Piece.render)
        = Piece.render Piece.exitP from by simp [strConcat, strAppend_empty]]

/-- Inputs X and y in that order, y flagged as a keyword argument, one
output z, version "7". -/
def exArgsC3 : Args :=
  ⟨"g", some [("X", ⟨[2, 2], 0⟩), ("y", ⟨[2, 1], 1⟩)], some ["X", "y"], some ["y"],
   some ["z"], DeleteInputs.ofBool false, none, none, false, true, "7"⟩

/-- The command synthesized for exArgsC3; the keyword argument y renders
as a quoted pair. -/
def exStrC3 : String :=
  "matlab -nosplash -singleCompThread -nojvm -nodisplay -r \"load T/input_vars.mat; [z] = g(X,"
    ++ squote ++ "y" ++ squote ++ ",y); save -v7 T/output_vars.mat z; exit()\""

theorem call_command_load_and_args_witness :
    exArgsC3.input_dict = some [("X", ⟨[2, 2], 0⟩), ("y", ⟨[2, 1], 1⟩)]
    ∧ ([("X", (⟨[2, 2], 0⟩ : MatArr)), ("y", ⟨[2, 1], 1⟩)] : List (String × MatArr)) ≠ []
    ∧ callstrSrc exCfg exArgsC3 "T" = Except.ok exStrC3
    ∧ (∃ ps, commandPieces exCfg exArgsC3 "T" = Except.ok ps
        ∧ exStrC3 = strConcat (ps.map Piece.render)
        ∧ ps.filter Piece.isLoad = [Piece.loadP (pathJoin "T" "input_vars.mat")]
        ∧ ps.filter Piece.isCall
            = [Piece.callP exArgsC3.func
                (joinSep ","
                  ((orderOf exArgsC3 [("X", ⟨[2, 2], 0⟩), ("y", ⟨[2, 1], 1⟩)]).map
                    (renderArg exArgsC3.kwarg_names)))]) :=
  ⟨rfl, by decide, rfl,
   call_command_load_and_args exCfg exArgsC3 "T" _
     [("X", ⟨[2, 2], 0⟩), ("y", ⟨[2, 1], 1⟩)] rfl (by decide) rfl⟩

/-- One input, empty output list. -/
def exArgsC5 : Args :=
  ⟨"tick", some [("X", ⟨[1], 0⟩)], none, none, some [],
   DeleteInputs.ofBool false, none, none, false, true, "7"⟩

theorem call_command_empty_outputs_witness :
    exArgsC5.output_names = some []
    ∧ (∃ s ps, callstrSrc exCfg exArgsC5 "T" = Except.ok s
        ∧ commandPieces exCfg exArgsC5 "T" = Except.ok ps
        ∧ s = strConcat (ps.map Piece.render)
        ∧ ps.filter Piece.isOutAssign = []
        ∧ ps.filter Piece.isSave = []
        ∧ ps.getLast? = some Piece.exitP
        ∧ (∃ s0, s = s0 ++ Piece.render Piece.exitP)) :=
  ⟨rfl, call_command_empty_outputs exCfg exArgsC5 "T" rfl⟩

/-! ## The example scenario (claim C4) -/

/-- Default constructor toggles with the workspace directory <dir>. -/
def exCfgDir : Cfg := ⟨AddPath.noPath, some "<dir>", true, true, false, true, true⟩

/-- The example scenario call: do_something with X (5x3) and y (5x1) in that
order and one output z, with default toggles and version "7". -/
def exArgsC4 : Args :=
  ⟨"do_something", some [("X", ⟨[5, 3], 0⟩), ("y", ⟨[5, 1], 1⟩)], some ["X", "y"],
   none, some ["z"], DeleteInputs.ofBool false, none, none, false, true, "7"⟩

/-- Is this event a process spawn. -/
def Event.isSpawn : Event → Bool
  | Event.spawnEv _ => true
  | _ => false

/-- C4 counterexample: the command synthesized for the example scenario is
not the string the spec displays - the code strips the trailing comma-space
from the assignment target (giving [z] rather than [z, ]) and puts no
space before the semicolon after the save arguments (z; rather than z ;). -/
theorem example_command_counterexample :
    callstrSrc exCfgDir exArgsC4 "<dir>"
      ≠ Except.ok
        "matlab -nosplash -singleCompThread -nojvm -nodisplay -r \"load <dir>/input_vars.mat; [z, ] = do_something(X,y); save -v7 <dir>/output_vars.mat z ; exit()\"" := by
  intro h
  have hval : callstrSrc exCfgDir exArgsC4 "<dir>"
      = Except.ok
        "matlab -nosplash -singleCompThread -nojvm -nodisplay -r \"load <dir>/input_vars.mat; [z] = do_something(X,y); save -v7 <dir>/output_vars.mat z; exit()\"" := rfl
  rw [hval] at h
  exact absurd (Except.ok.inj h) (by decide)

/-- C4 (amended): the example scenario synthesizes exactly the command
with [z] as assignment target and no space before the final semicolons,
spawns exactly one child process, and returns the mapping binding z to the
decoded value. -/
theorem example_call_exact :
    callstrSrc exCfgDir exArgsC4 "<dir>"
      = Except.ok
        "matlab -nosplash -singleCompThread -nojvm -nodisplay -r \"load <dir>/input_vars.mat; [z] = do_something(X,y); save -v7 <dir>/output_vars.mat z; exit()\""
    ∧ ((callModel exCfgDir exArgsC4 exEnv exFS).trace.filter Event.isSpawn).length = 1
    ∧ (callModel exCfgDir exArgsC4 exEnv exFS).outcome
        = Except.ok (some (CallRes.flat [("z", ⟨[5, 1], 7⟩)])) :=
  ⟨rfl, rfl, rfl⟩

/-! ## The hierarchical decode walk (claim C6) -/

/-- Line 45: a name participates in the walk unless it begins with one of
the reserved markers. -/
def visibleName (k : String) : Bool :=
  !(pyStartsWith k "#") && !(pyStartsWith k "_")

/-- Is this node a leaf dataset of the opaque object dtype. -/
def isOpaqueLeaf : HNode → Bool
  | HNode.dataset true _ => true
  | _ => false

theorem iter_struct_step_hidden (sq : Bool) (k : String) (c : HNode)
    (rest : List (String × HNode)) (hv : visibleName k = false) :
    iter_struct sq ((k, c) :: rest) = iter_struct sq rest := by
  have hv2 : (!(pyStartsWith k "#") && !(pyStartsWith k "_")) = false := hv
  cases c <;> simp [iter_struct, hv2]

theorem iter_struct_step_group (sq : Bool) (k : String)
    (gcs rest : List (String × HNode)) (hv : visibleName k = true) :
    iter_struct sq ((k, HNode.group gcs) :: rest)
      = ((k, MatVal.mstruct (iter_struct true gcs).1) :: (iter_struct sq rest).1,
         (iter_struct true gcs).2 ++ (iter_struct sq rest).2) := by
  have hv2 : (!(pyStartsWith k "#") && !(pyStartsWith k "_")) = true := hv
  simp [iter_struct, hv2]

theorem iter_struct_step_objtype (sq : Bool) (k : String) (v : MatArr)
    (rest : List (String × HNode)) (hv : visibleName k = true) :
    iter_struct sq ((k, HNode.dataset true v) :: rest)
      = ((iter_struct sq rest).1,
         ("skipping mat file object: " ++ k) :: (iter_struct sq rest).2) := by
  have hv2 : (!(pyStartsWith k "#") && !(pyStartsWith k "_")) = true := hv
  simp [iter_struct, hv2]

theorem iter_struct_step_data (sq : Bool) (k : String) (v : MatArr)
    (rest : List (String × HNode)) (hv : visibleName k = true) :
    iter_struct sq ((k, HNode.dataset false v) :: rest)
      = ((k, MatVal.arr (if sq then npSqueeze v else v)) :: (iter_struct sq rest).1,
         (iter_struct sq rest).2) := by
  have hv2 : (!(pyStartsWith k "#") && !(pyStartsWith k "_")) = true := hv
  simp [iter_struct, hv2]

/-- C6: during the hierarchical decode walk of a children list, every leaf
dataset of the opaque object dtype is skipped with a printed notice, while
every other child whose name does not begin with a reserved marker is
decoded and attached to the result record, in walk order; the walk is a
total function, so the decode completes without raising. -/
theorem iter_struct_skips_objtype (sq : Bool) (cs : List (String × HNode)) :
    (iter_struct sq cs).1.map Prod.fst
      = (cs.filter (fun kc => visibleName kc.1 && !(isOpaqueLeaf kc.2))).map Prod.fst
    ∧ (∀ k c2, (k, c2) ∈ cs → visibleName k = true → isOpaqueLeaf c2 = true →
        ("skipping mat file object: " ++ k) ∈ (iter_struct sq cs).2) := by
  induction cs with
  | nil =>
    refine ⟨by simp [iter_struct], ?_⟩
    intro k c2 h
    simp at h
  | cons kc rest ih =>
    obtain ⟨k, c⟩ := kc
    constructor
    · cases hv : visibleName k with
      | false =>
        rw [iter_struct_step_hidden sq k c rest hv]
        simp only [List.filter_cons]
        rw [if_neg (by simp [hv])]
        exact ih.1
      | true =>
        cases c with
        | group gcs =>
          rw [iter_struct_step_group sq k gcs rest hv]
          simp only [List.filter_cons]
          rw [if_pos (by simp [hv, isOpaqueLeaf])]
          simp only [List.map_cons]
          rw [ih.1]
        | dataset isObj v =>
          cases isObj with
          | true =>
            rw [iter_struct_step_objtype sq k v rest hv]
            simp only [List.filter_cons]
            rw [if_neg (by simp [isOpaqueLeaf])]
            exact ih.1
          | false =>
            rw [iter_struct_step_data sq k v rest hv]
            simp only [List.map_cons, List.filter_cons]
            dsimp only
            rw [if_pos (by rw [hv]; rfl)]
            simp only [List.map_cons]
            rw [ih.1]
    · intro k2 c2 hmem hvis hop
      rcases List.mem_cons.mp hmem with heq | hmem2
      · have hk : k2 = k := congrArg Prod.fst heq
        have hc : c2 = c := congrArg Prod.snd heq
        rw [hk] at hvis
        rw [hc] at hop
        cases c with
        | group gcs => exact Bool.noConfusion (show false = true from hop)
        | dataset isObj v =>
          cases isObj with
          | false => exact Bool.noConfusion (show false = true from hop)
          | true =>
            rw [iter_struct_step_objtype sq k v rest hvis, hk]
            exact List.mem_cons_self _ _
      · have hin := ih.2 k2 c2 hmem2 hvis hop
        cases hv : visibleName k with
        | false =>
          rw [iter_struct_step_hidden sq k c rest hv]
          exact hin
        | true =>
          cases c with
          | group gcs =>
            rw [iter_struct_step_group sq k gcs rest hv]
            exact List.mem_append_right _ hin
          | dataset isObj v =>
            cases isObj with
            | true =>
              rw [iter_struct_step_objtype sq k v rest hv]
              exact List.mem_cons_of_mem _ hin
            | false =>
              rw [iter_struct_step_data sq k v rest hv]
              exact hin

/-- A group with one plain dataset, one opaque dataset, one metadata entry
and one nested group. -/
def exTree : List (String × HNode) :=
  [("a", HNode.dataset false ⟨[2, 1], 0⟩),
   ("obj", HNode.dataset true ⟨[1], 1⟩),
   ("#refs", HNode.dataset false ⟨[1], 2⟩),
   ("g", HNode.group [("x", HNode.dataset false ⟨[1, 3], 3⟩)])]

theorem iter_struct_skips_objtype_witness :
    (iter_struct true exTree).1.map Prod.fst = ["a", "g"]
    ∧ ("obj", HNode.dataset true (⟨[1], 1⟩ : MatArr)) ∈ exTree
    ∧ ("skipping mat file object: obj" ∈ (iter_struct true exTree).2) := by
  have h := iter_struct_skips_objtype true exTree
  refine ⟨h.1.trans (by decide), List.Mem.tail _ (List.Mem.head _), ?_⟩
  exact h.2 "obj" (HNode.dataset true ⟨[1], 1⟩)
    (List.Mem.tail _ (List.Mem.head _)) (by decide) rfl

/-! ## The generated shell script (claim C8) -/

/-- The script as the spec describes it (refinement reference, transcribed
from the words of the spec): a shebang and the command line, with the
display-adjustment line present only when a display variable must be
forced for headless execution. -/
def specScriptLines (displayMustBeForced : Bool) (callstr : String) : List String :=
  if displayMustBeForced then ["#!/bin/bash", "export DISPLAY=:0", callstr]
  else ["#!/bin/bash", callstr]

/-- C8 counterexample: the code writes the display-adjustment line
unconditionally (lines 209-213, TODO at line 211), so in the case where no
display variable needs forcing the generated script still has three lines,
not the two the spec describes. -/
theorem script_lines_counterexample :
    scriptLines "matlab" ≠ specScriptLines false "matlab"
    ∧ (scriptLines "matlab").length = 3 := by
  refine ⟨?_, rfl⟩
  intro h
  have := congrArg List.length h
  simp [scriptLines, specScriptLines] at this

/-- C8 (amended): the generated shell script always consists of exactly
three lines - shebang, display-environment adjustment, assembled command -
so it always matches the display-forced shape of the spec. -/
theorem script_lines_always_three (cmd : String) :
    scriptLines cmd = specScriptLines true cmd
    ∧ (scriptLines cmd).length = 3 := ⟨rfl, rfl⟩

end Matcall
